import Mathlib

/-!
Verification of the image-backend artifact store (server.js, models/User.js).

The JavaScript source is shallowly embedded: the Mongo `Image` collection is a
list of records, the `uploads/` directory is an association list from file name
to bytes, and the route handlers become pure state-passing functions.  The
`uuid` library's v4 generator is modelled as a function of its random hex
nibbles, and Node's `path.extname` is implemented faithfully.  MongoDB's TTL
index (`expires: 86400`) is modelled as a separate purge transition, since the
TTL monitor is a background sweep that runs independently of queries.
-/

set_option autoImplicit false

namespace ImageBackend

/-- Strings are modelled as lists of characters so that character-level facts
(hex alphabets, file extensions) can be proved directly. -/
abbrev Str : Type := List Char

/-- Lowercase hexadecimal digit character for a nibble, as produced by the
uuid library's byte-to-hex table. -/
def hexChar (n : Nat) : Char :=
  if n < 10 then Char.ofNat (48 + n) else Char.ofNat (87 + n)

/-- The variant nibble of a version-4 UUID: one of 8, 9, a, b. -/
def variantChar (n : Nat) : Char := hexChar (8 + n % 4)

/-- Canonical string of a version-4 UUID, as a function of the 32 random hex
nibbles `d` supplied by the random source: groups of 8-4-4-4-12 hex digits
separated by hyphens, with the version digit fixed to 4 and the variant
digit restricted to 8, 9, a, b (uuid.v4 semantics). -/
def uuidv4 (d : List Nat) : Str :=
  (d.take 8).map hexChar ++ ['-'] ++ ((d.drop 8).take 4).map hexChar ++ ['-'] ++
  ('4' :: ((d.drop 13).take 3).map hexChar) ++ ['-'] ++
  (variantChar (d.getD 16 0) :: ((d.drop 17).take 3).map hexChar) ++ ['-'] ++
  ((d.drop 20).take 12).map hexChar

/-- Code generation in the upload route: `uuidv4().slice(0, 8)` (server.js
line 59). -/
def genCode (d : List Nat) : Str := (uuidv4 d).take 8

/-- A path with its trailing slashes removed: Node's path functions scan past
trailing separators before locating the last component (the `matchedSlash`
logic of lib/path.js). -/
def stripTrailingSlashes (p : Str) : Str := (p.reverse.dropWhile (fun c => c = '/')).reverse

/-- Last component of a path, i.e. Node's `path.basename`: trailing slashes
are skipped first, then everything after the last remaining slash is taken. -/
def basenameOf (p : Str) : Str :=
  ((stripTrailingSlashes p).reverse.takeWhile (fun c => c ≠ '/')).reverse

/-- Characters of the basename after its last dot, in reverse order. -/
def extTail (p : Str) : Str := (basenameOf p).reverse.takeWhile (fun c => c ≠ '.')

/-- Node's `path.extname`: trailing slashes are skipped, then the substring of
the last path component from its last dot to the end is returned; empty when
the component has no dot, when its only dot is its leading character
(dotfiles), or when the component is exactly two dots. -/
def extname (p : Str) : Str :=
  if basenameOf p = ['.', '.'] then []
  else if (extTail p).length = (basenameOf p).length then []
  else if (basenameOf p).length = (extTail p).length + 1 then []
  else '.' :: (extTail p).reverse

/-- Storage name chosen by the multer disk-storage callback (server.js line
49): a fresh uuid with the original upload's extension appended,
`uuidv4() + path.extname(file.originalname)`. -/
def storageName (d : List Nat) (orig : Str) : Str := uuidv4 d ++ extname orig

/-- One document of the Mongo `Image` collection (server.js lines 35-44):
public code, internal storage file name, and creation time in seconds. -/
structure ImageRec where
  code : Str
  filename : Str
  createdAt : Nat
  deriving DecidableEq, Repr

/-- TTL of the `createdAt` index: `expires: 86400` seconds (24 hours). -/
def ttl : Nat := 86400

/-- Combined persistent state: the `Image` collection in insertion order and
the `uploads/` directory as an association list from file name to bytes. -/
structure StoreState where
  images : List ImageRec
  files : List (Str × List Nat)
  deriving DecidableEq, Repr

/-- Write a file at a path, overwriting the entry if the path already exists
(disk semantics of multer's write into `uploads/`). -/
def putFile (n : Str) (b : List Nat) : List (Str × List Nat) → List (Str × List Nat)
  | [] => [(n, b)]
  | e :: fs => if e.1 = n then (n, b) :: fs else e :: putFile n b fs

/-- Read a file by path: `fs.existsSync` plus the read that `res.download`
performs. -/
def lookupFile (n : Str) (fs : List (Str × List Nat)) : Option (List Nat) :=
  (fs.find? (fun e => e.1 == n)).map (fun e => e.2)

/-- Response of the upload route: 400 when `req.file` is absent, otherwise the
JSON body carrying the generated code. -/
inductive UploadResp where
  | noFile
  | ok (code : Str)
  deriving DecidableEq, Repr

/-- Upload route (server.js lines 54-68) together with the multer middleware:
when a file field is present multer first writes the blob under
`storageName dFile orig`, then the handler generates `genCode dCode`,
inserts a new `Image` document (the schema has no unique index on `code`,
so `save` always succeeds), and returns the code; when the file field is
absent nothing is written and a 400 error is returned.  `dFile` and
`dCode` are the nibbles drawn for the two uuidv4 calls; `now` is the
current time used for `createdAt`. -/
def upload (fileField : Option (Str × List Nat)) (dFile dCode : List Nat)
    (now : Nat) (st : StoreState) : UploadResp × StoreState :=
  match fileField with
  | none => (.noFile, st)
  | some (orig, bytes) =>
    let fname := storageName dFile orig
    (.ok (genCode dCode),
      { images := st.images ++ [⟨genCode dCode, fname, now⟩],
        files := putFile fname bytes st.files })

/-- Response of the download route: 404 from the `findOne` miss, 404 from the
missing-blob branch, or the streamed file.  `res.download(filePath)` sets
the Content-Disposition filename to `path.basename(filePath)`, which is
recorded in the `dispositionName` field. -/
inductive DownloadResp where
  | notFoundInvalid
  | notFoundMissing
  | fileResp (storage : Str) (bytes : List Nat) (dispositionName : Str)
  deriving DecidableEq, Repr

/-- Download route (server.js lines 71-87): `Image.findOne({code})` with no
filter on `createdAt`; on a hit, an existence check of the blob; if the
blob is gone the document is removed (`Image.deleteOne`, which deletes the
first match) and 404 is returned; otherwise `res.download` streams the
file. -/
def download (c : Str) (st : StoreState) : DownloadResp × StoreState :=
  match st.images.find? (fun r => r.code == c) with
  | none => (.notFoundInvalid, st)
  | some r =>
    match lookupFile r.filename st.files with
    | none => (.notFoundMissing, { st with images := st.images.eraseP (fun q => q.code == c) })
    | some b => (.fileResp r.filename b r.filename, st)

/-- Static file route `express.static('uploads')` (server.js line 19): any
caller may fetch a file of the uploads directory by its exact name. -/
def staticGet (n : Str) (st : StoreState) : Option (List Nat) := lookupFile n st.files

/-- MongoDB TTL monitor pass at time `now`: removes every document whose
`createdAt` lies at least `ttl` seconds in the past.  The blob files are
not touched - nothing in the code deletes them on expiry. -/
def purgeExpired (now : Nat) (st : StoreState) : StoreState :=
  { st with images := st.images.filter (fun r => decide (now < r.createdAt + ttl)) }

/-- Out-of-band deletion of a blob file (a premise of the reconciliation
scenario in the spec): the file disappears, metadata is untouched. -/
def outOfBandDelete (n : Str) (st : StoreState) : StoreState :=
  { st with files := st.files.filter (fun e => !(e.1 == n)) }

/-- State reached after a number of repeated downloads of the same code:
`downloadIter c k st` is the store after `k` calls of the download route for
`c` starting from `st`. -/
def downloadIter (c : Str) : Nat → StoreState → StoreState
  | 0, st => st
  | k + 1, st => downloadIter c k (download c st).2

/-- Bytes carried by a download response, if any. -/
def respBytes : DownloadResp → Option (List Nat)
  | .fileResp _ b _ => some b
  | _ => none

/-- Content-Disposition filename of a download response, if any. -/
def dispositionOf : DownloadResp → Option Str
  | .fileResp _ _ dn => some dn
  | _ => none

/-- Whether a download response is one of the two 404 outcomes. -/
def isNotFound : DownloadResp → Bool
  | .notFoundInvalid => true
  | .notFoundMissing => true
  | .fileResp _ _ _ => false

/-! Credential model for the signup and login routes.  bcrypt is an external
library; it is modelled as an abstract keyed injection: `bcrypt.hash(p, salt)`
becomes a tagged constructor application (deterministic per salt, injective in
the preimage, and never equal to any plaintext input - the properties the
routes rely on), and `bcrypt.compare(candidate, stored)` re-hashes the
candidate with the salt embedded in `stored` and tests equality, which reduces
to comparing the stored preimage with the plaintext candidate. -/

/-- Value space of the `password` field: either a plaintext string or a bcrypt
digest of another value under some salt. -/
inductive PwVal where
  | plain (s : String)
  | hashed (salt : Nat) (v : PwVal)
  deriving DecidableEq, Repr

/-- Model of `bcrypt.hash(v, salt)`. -/
def bcryptHash (v : PwVal) (salt : Nat) : PwVal := .hashed salt v

/-- Model of `bcrypt.compare(candidate, stored)`: true exactly when `stored`
is a digest whose preimage is the plaintext candidate. -/
def bcryptCompare (candidate : String) (stored : PwVal) : Bool :=
  match stored with
  | .hashed _ v => v == .plain candidate
  | .plain _ => false

/-- One document of the `User` collection (models/User.js lines 5-18). -/
structure UserRec where
  email : String
  password : PwVal
  deriving DecidableEq, Repr

/-- Mongoose `User.findOne({email})`. -/
def findUser (email : String) (us : List UserRec) : Option UserRec :=
  us.find? (fun u => u.email == email)

/-- The pre-save hook of the `User` schema (models/User.js lines 21-31): a new
document always has a modified `password` path, so the hook hashes the stored
password value once more with a fresh salt before the document is persisted. -/
def preSaveHook (u : UserRec) (salt : Nat) : UserRec :=
  { u with password := bcryptHash u.password salt }

/-- Response of the signup route. -/
inductive SignupResp where
  | missingFields
  | userExists
  | created
  deriving DecidableEq, Repr

/-- Signup route (server.js lines 90-107): reject missing fields, reject an
existing email, otherwise hash the password in the route handler
(`bcrypt.hash(password, 10)`), build the document, and `save` it - which
triggers the pre-save hook, hashing the already-hashed value a second time.
`saltRoute` and `saltHook` are the salts bcrypt draws for the two calls. -/
def signup (email pw : String) (saltRoute saltHook : Nat) (us : List UserRec) :
    SignupResp × List UserRec :=
  if email == "" || pw == "" then (.missingFields, us)
  else
    match findUser email us with
    | some _ => (.userExists, us)
    | none => (.created, us ++ [preSaveHook ⟨email, bcryptHash (.plain pw) saltRoute⟩ saltHook])

/-- Response of the login route. -/
inductive LoginResp where
  | missingFields
  | invalidCredentials
  | ok
  deriving DecidableEq, Repr

/-- Login route (server.js lines 110-126): reject missing fields, look the
user up by email, and compare the plaintext password against the stored
digest with `bcrypt.compare`. -/
def login (email pw : String) (us : List UserRec) : LoginResp :=
  if email == "" || pw == "" then .missingFields
  else
    match findUser email us with
    | none => .invalidCredentials
    | some u => if bcryptCompare pw u.password then .ok else .invalidCredentials

/-! Concrete scenario used by the counterexamples and witnesses: deterministic
nibble draws for the uuid calls, and the states reached by one or two uploads
through the routes themselves. -/

/-- The 16 hexadecimal symbols, the alphabet the code generator draws from. -/
def hexAlphabet : Str := "0123456789abcdef".toList

/-- The 36 alphanumeric symbols named by the specification. -/
def base36Alphabet : Str := "0123456789abcdefghijklmnopqrstuvwxyz".toList

/-- Deterministic nibble draw: all zero, giving the code 00000000. -/
def dZero : List Nat := List.replicate 32 0

/-- Deterministic nibble draw for the first upload's file uuid. -/
def dOne : List Nat := List.replicate 32 1

/-- Deterministic nibble draw for the second upload's file uuid. -/
def dTwo : List Nat := List.replicate 32 2

/-- The code produced from the all-zero draw. -/
def codeZ : Str := "00000000".toList

/-- Empty store: no metadata documents, no files. -/
def emptySt : StoreState := ⟨[], []⟩

/-- Storage name of the first scenario upload. -/
def fname1 : Str := storageName dOne "a.png".toList

/-- Storage name of the second scenario upload. -/
def fname2 : Str := storageName dTwo "b.png".toList

/-- State after uploading bytes [1] as a.png with code draw `dZero`. -/
def stOne : StoreState := (upload (some ("a.png".toList, [1])) dOne dZero 0 emptySt).2

/-- State after a second upload of bytes [2] as b.png whose code draw collides
with the first (both draws are `dZero`). -/
def stDup : StoreState := (upload (some ("b.png".toList, [2])) dTwo dZero 0 stOne).2

/-- The collision state after the first upload's blob is deleted out-of-band. -/
def stOrphan : StoreState := outOfBandDelete fname1 stDup

/-- The single-upload state after its blob is deleted out-of-band. -/
def stSoloOrphan : StoreState := outOfBandDelete fname1 stOne

/-! Helper lemmas about the association-list file store and `find?`. -/

/-- Reading a path immediately after writing it yields the written bytes. -/
theorem lookupFile_putFile_same (fs : List (Str × List Nat)) (n : Str) (b : List Nat) :
    lookupFile n (putFile n b fs) = some b := by
  induction fs with
  | nil => simp [putFile, lookupFile]
  | cons e fs ih =>
    by_cases h : e.1 = n
    · simp [putFile, h, lookupFile]
    · simpa [putFile, h, lookupFile, List.find?_cons, h] using ih

/-- Searching an appended list skips a first part with no hit. -/
theorem find?_append_of_none {α : Type} (p : α → Bool) (l1 l2 : List α)
    (h : l1.find? p = none) : (l1 ++ l2).find? p = l2.find? p := by
  induction l1 with
  | nil => simp
  | cons a l1 ih =>
    rcases List.find?_eq_none.mp h a (by simp) with hpa
    have h1 : l1.find? p = none := by
      refine List.find?_eq_none.mpr ?_
      intro x hx
      exact List.find?_eq_none.mp h x (by simp [hx])
    simp only [List.cons_append, List.find?_cons]
    rw [Bool.not_eq_true] at hpa
    simp [hpa, ih h1]

/-- Characterization of the download route on a metadata miss. -/
theorem download_none (st : StoreState) (c : Str)
    (h : st.images.find? (fun r => r.code == c) = none) :
    download c st = (.notFoundInvalid, st) := by
  unfold download
  rw [h]

/-- Characterization of the download route on a metadata hit whose blob is
present. -/
theorem download_found_present (st : StoreState) (c : Str) (r : ImageRec) (b : List Nat)
    (h1 : st.images.find? (fun q => q.code == c) = some r)
    (h2 : lookupFile r.filename st.files = some b) :
    download c st = (.fileResp r.filename b r.filename, st) := by
  unfold download
  rw [h1]
  simp [h2]

/-- Characterization of the download route on a metadata hit whose blob is
absent: the document is removed and a 404 is returned. -/
theorem download_found_absent (st : StoreState) (c : Str) (r : ImageRec)
    (h1 : st.images.find? (fun q => q.code == c) = some r)
    (h2 : lookupFile r.filename st.files = none) :
    download c st =
      (.notFoundMissing, { st with images := st.images.eraseP (fun q => q.code == c) }) := by
  unfold download
  rw [h1]
  simp [h2]

/-- When the nibble draw has full length, the generated code is exactly the
hex rendering of the first eight nibbles. -/
theorem genCode_eq_take (d : List Nat) (hlen : d.length = 32) :
    genCode d = (d.take 8).map hexChar := by
  have h8 : ((d.take 8).map hexChar).length = 8 := by
    simp [List.length_take, hlen]
  unfold genCode uuidv4
  simp only [List.append_assoc]
  rw [List.take_left' h8]

/-- If every record of a store bearing a given code lacks its blob, a download
of that code is a 404, the files are untouched, and the surviving metadata is
a sub-collection of the original. -/
theorem download_blobless (st : StoreState) (c : Str)
    (h : ∀ q ∈ st.images, q.code = c → lookupFile q.filename st.files = none) :
    isNotFound (download c st).1 = true ∧
    (download c st).2.files = st.files ∧
    (∀ q ∈ (download c st).2.images, q ∈ st.images) := by
  cases hf : st.images.find? (fun q => q.code == c) with
  | none =>
    rw [download_none st c hf]
    exact ⟨rfl, rfl, fun q hq => hq⟩
  | some r =>
    have hr_mem : r ∈ st.images := List.mem_of_find?_eq_some hf
    have hr_code : r.code = c := by simpa using List.find?_some hf
    have habs := h r hr_mem hr_code
    rw [download_found_absent st c r hf habs]
    exact ⟨rfl, rfl, fun q hq => (List.eraseP_sublist st.images).subset hq⟩

/-- The all-records-blobless property of a code is preserved by a download of
that code: files are untouched and the surviving records are a subset. -/
theorem download_blobless_inv (st : StoreState) (c : Str)
    (h : ∀ q ∈ st.images, q.code = c → lookupFile q.filename st.files = none) :
    ∀ q ∈ (download c st).2.images, q.code = c →
      lookupFile q.filename (download c st).2.files = none := by
  intro q hq hqc
  rw [(download_blobless st c h).2.1]
  exact h q ((download_blobless st c h).2.2 q hq) hqc

/-- The all-records-blobless property of a code is preserved by any number of
repeated downloads of that code. -/
theorem downloadIter_blobless (c : Str) (k : Nat) :
    ∀ st : StoreState,
    (∀ q ∈ st.images, q.code = c → lookupFile q.filename st.files = none) →
    ∀ q ∈ (downloadIter c k st).images, q.code = c →
      lookupFile q.filename (downloadIter c k st).files = none := by
  induction k with
  | zero => exact fun st h => h
  | succ k ih => exact fun st h => ih (download c st).2 (download_blobless_inv st c h)

/-- Reversing the kept head of a reversed list yields a suffix. -/
theorem reverse_takeWhile_suffix {α : Type} (p : α → Bool) (l : List α) :
    List.IsSuffix ((l.reverse.takeWhile p).reverse) l :=
  ⟨(l.reverse.dropWhile p).reverse, by
    rw [← List.reverse_append, List.takeWhile_append_dropWhile, List.reverse_reverse]⟩

/-- Removing trailing slashes leaves an initial segment of the path. -/
theorem stripTrailingSlashes_eq_append (p : Str) :
    ∃ t, stripTrailingSlashes p ++ t = p := by
  refine ⟨(p.reverse.takeWhile (fun c => c = '/')).reverse, ?_⟩
  unfold stripTrailingSlashes
  rw [← List.reverse_append, List.takeWhile_append_dropWhile, List.reverse_reverse]

/-- The basename of a path is a suffix of the path with its trailing slashes
removed. -/
theorem basenameOf_suffix (p : Str) :
    List.IsSuffix (basenameOf p) (stripTrailingSlashes p) :=
  reverse_takeWhile_suffix _ (stripTrailingSlashes p)

/-- The head of the remainder left by `dropWhile` fails the predicate. -/
theorem dropWhile_head_not {α : Type} (p : α → Bool) (l : List α) (a : α) (t : List α)
    (h : l.dropWhile p = a :: t) : p a = false := by
  induction l generalizing t with
  | nil => simp at h
  | cons x xs ih =>
    rw [List.dropWhile_cons] at h
    by_cases hx : p x
    · rw [if_pos hx] at h
      exact ih t h
    · rw [if_neg hx] at h
      cases h
      exact Bool.not_eq_true _ ▸ eq_false_of_ne_true hx

/-- When the basename does not consist solely of post-dot characters, the dot
together with those characters is a suffix of the basename. -/
theorem dot_extTail_suffix (p : Str)
    (h : ¬ (extTail p).length = (basenameOf p).length) :
    List.IsSuffix ('.' :: (extTail p).reverse) (basenameOf p) := by
  have hsplit :
      (basenameOf p).reverse.takeWhile (fun c => c ≠ '.') ++
        (basenameOf p).reverse.dropWhile (fun c => c ≠ '.') = (basenameOf p).reverse :=
    List.takeWhile_append_dropWhile _ _
  have hd : (basenameOf p).reverse.dropWhile (fun c => c ≠ '.') ≠ [] := by
    intro hnil
    apply h
    have htake : (basenameOf p).reverse.takeWhile (fun c => c ≠ '.') = (basenameOf p).reverse := by
      conv_rhs => rw [← hsplit]
      rw [hnil, List.append_nil]
    unfold extTail
    rw [htake, List.length_reverse]
  obtain ⟨a, t, hdrop⟩ : ∃ a t, (basenameOf p).reverse.dropWhile (fun c => c ≠ '.') = a :: t := by
    cases hcase : (basenameOf p).reverse.dropWhile (fun c => c ≠ '.') with
    | nil => exact absurd hcase hd
    | cons a t => exact ⟨a, t, rfl⟩
  have ha : a = '.' := by
    have := dropWhile_head_not _ _ _ _ hdrop
    simpa using this
  refine ⟨t.reverse, ?_⟩
  have hb : basenameOf p =
      ((basenameOf p).reverse.takeWhile (fun c => c ≠ '.') ++
        (basenameOf p).reverse.dropWhile (fun c => c ≠ '.')).reverse := by
    rw [hsplit, List.reverse_reverse]
  rw [extTail]
  conv_rhs => rw [hb]
  rw [hdrop, ha]
  simp

/-- The extension computed by the model of `path.extname` is a suffix of the
path's last component. -/
theorem extname_suffix_basename (p : Str) : List.IsSuffix (extname p) (basenameOf p) := by
  by_cases hb : basenameOf p = ['.', '.']
  · simp only [extname, if_pos hb]
    exact List.nil_suffix
  by_cases hlen : (extTail p).length = (basenameOf p).length
  · simp only [extname, if_neg hb, if_pos hlen]
    exact List.nil_suffix
  by_cases hone : (basenameOf p).length = (extTail p).length + 1
  · simp only [extname, if_neg hb, if_neg hlen, if_pos hone]
    exact List.nil_suffix
  · simp only [extname, if_neg hb, if_neg hlen, if_neg hone]
    exact dot_extTail_suffix p hlen

/-- The extension computed by the model of `path.extname` is a contiguous
slice of the original path (Node returns `path.slice(startDot, end)`): a
suffix of the last component, which sits inside the path before the trailing
slashes. -/
theorem extname_infix (p : Str) : extname p <:+: p := by
  obtain ⟨s, hs⟩ := extname_suffix_basename p
  obtain ⟨u, hu⟩ := basenameOf_suffix p
  obtain ⟨t, ht⟩ := stripTrailingSlashes_eq_append p
  refine ⟨u ++ s, t, ?_⟩
  conv_rhs => rw [← ht, ← hu, ← hs]
  simp [List.append_assoc]

/-- Each hex character lies in the 16-symbol hexadecimal alphabet. -/
theorem hexChar_mem_hexAlphabet (x : Nat) (hx : x < 16) : hexChar x ∈ hexAlphabet := by
  interval_cases x <;> decide

/-! Claim theorems. -/

/-- C1 (corrected): a non-empty upload whose generated code does not collide
with any existing record's code can be downloaded back byte-for-byte before
the TTL elapses, even after a TTL monitor pass.  The freshness hypothesis is
forced by the counterexample: the schema has no unique index on `code`, and a
colliding upload's code resolves to the earlier record. -/
theorem c1_freshRoundTrip (st : StoreState) (d1 d2 : List Nat) (orig : Str)
    (bytes : List Nat) (t now : Nat)
    (_hbytes : bytes ≠ [])
    (hfresh : ∀ r ∈ st.images, r.code ≠ genCode d2)
    (httl : now < t + ttl) :
    (upload (some (orig, bytes)) d1 d2 t st).1 = .ok (genCode d2) ∧
    respBytes (download (genCode d2)
      (purgeExpired now (upload (some (orig, bytes)) d1 d2 t st).2)).1 = some bytes := by
  refine ⟨rfl, ?_⟩
  have himg : (purgeExpired now (upload (some (orig, bytes)) d1 d2 t st).2).images
      = st.images.filter (fun r => decide (now < r.createdAt + ttl))
        ++ [⟨genCode d2, storageName d1 orig, t⟩] := by
    simp [upload, purgeExpired, List.filter_append, httl]
  have hnone : (st.images.filter (fun r => decide (now < r.createdAt + ttl))).find?
      (fun r => r.code == genCode d2) = none := by
    refine List.find?_eq_none.mpr (fun r hr => ?_)
    have hmem : r ∈ st.images := (List.mem_filter.mp hr).1
    simpa using hfresh r hmem
  have hfind : (purgeExpired now (upload (some (orig, bytes)) d1 d2 t st).2).images.find?
      (fun r => r.code == genCode d2) = some ⟨genCode d2, storageName d1 orig, t⟩ := by
    rw [himg, find?_append_of_none _ _ _ hnone]
    simp [List.find?_cons]
  have hlook : lookupFile (ImageRec.mk (genCode d2) (storageName d1 orig) t).filename
      (purgeExpired now (upload (some (orig, bytes)) d1 d2 t st).2).files = some bytes := by
    show lookupFile (storageName d1 orig) (putFile (storageName d1 orig) bytes st.files) = some bytes
    exact lookupFile_putFile_same _ _ _
  rw [download_found_present _ _ _ _ hfind hlook]
  rfl

/-- C1 witness: concrete instantiation of the corrected round trip on the
empty store. -/
theorem c1_freshRoundTrip_witness :
    (upload (some ("a.png".toList, [7])) dOne dZero 0 emptySt).1 = .ok (genCode dZero) ∧
    respBytes (download (genCode dZero)
      (purgeExpired 100 (upload (some ("a.png".toList, [7])) dOne dZero 0 emptySt).2)).1
      = some [7] :=
  c1_freshRoundTrip emptySt dOne dZero ("a.png".toList) [7] 0 100
    (by decide) (by decide) (by decide)

/-- C1 counterexample: two uploads whose code draws collide both succeed, and
downloading the code returned by the second upload yields the first upload's
bytes [1], not the uploaded bytes [2] - the claim as stated fails. -/
theorem c1_counterexample :
    (upload (some ("b.png".toList, [2])) dTwo dZero 0 stOne).1 = .ok codeZ ∧
    respBytes (download codeZ stDup).1 = some [1] ∧
    respBytes (download codeZ stDup).1 ≠ some [2] := by decide

/-- C2 (corrected): the `Image` schema declares no unique index on `code`, so
inserting a second record with the code of an existing active record succeeds:
the upload responds with the duplicate code and both records coexist in the
collection. -/
theorem c2_duplicateInsertSucceeds (st : StoreState) (orig : Str) (bytes : List Nat)
    (d1 d2 : List Nat) (t : Nat) (r : ImageRec)
    (hr : r ∈ st.images) (_hcode : r.code = genCode d2) (_hactive : t < r.createdAt + ttl) :
    (upload (some (orig, bytes)) d1 d2 t st).1 = .ok (genCode d2) ∧
    r ∈ (upload (some (orig, bytes)) d1 d2 t st).2.images ∧
    (⟨genCode d2, storageName d1 orig, t⟩ : ImageRec)
      ∈ (upload (some (orig, bytes)) d1 d2 t st).2.images := by
  refine ⟨rfl, ?_, ?_⟩
  · show r ∈ st.images ++ [⟨genCode d2, storageName d1 orig, t⟩]
    exact List.mem_append_left _ hr
  · show _ ∈ st.images ++ [⟨genCode d2, storageName d1 orig, t⟩]
    exact List.mem_append_right _ (List.mem_singleton_self _)

/-- C2 witness: concrete duplicate insert on top of the one-record store. -/
theorem c2_duplicateInsertSucceeds_witness :
    (upload (some ("b.png".toList, [2])) dTwo dZero 0 stOne).1 = .ok (genCode dZero) ∧
    (⟨codeZ, fname1, 0⟩ : ImageRec)
      ∈ (upload (some ("b.png".toList, [2])) dTwo dZero 0 stOne).2.images ∧
    (⟨genCode dZero, storageName dTwo "b.png".toList, 0⟩ : ImageRec)
      ∈ (upload (some ("b.png".toList, [2])) dTwo dZero 0 stOne).2.images :=
  c2_duplicateInsertSucceeds stOne ("b.png".toList) [2] dTwo dZero 0
    ⟨codeZ, fname1, 0⟩ (by decide) (by decide) (by decide)

/-- C2 counterexample: two inserts of the same active code both succeed - the
collection ends up holding two records with the code, refuting the claim that
one of the inserts must fail with DuplicateCode. -/
theorem c2_counterexample :
    (upload (some ("a.png".toList, [1])) dOne dZero 0 emptySt).1 = .ok codeZ ∧
    (upload (some ("b.png".toList, [2])) dTwo dZero 0 stOne).1 = .ok codeZ ∧
    stDup.images.map ImageRec.code = [codeZ, codeZ] := by decide

/-- C3 (corrected): an expired record is treated as absent only once the TTL
monitor has physically purged it: after a purge pass at a time past every
record of the code, the download route reports not-found. -/
theorem c3_purgedLookup (st : StoreState) (c : Str) (now : Nat)
    (hexp : ∀ r ∈ st.images, r.code = c → r.createdAt + ttl ≤ now) :
    (download c (purgeExpired now st)).1 = .notFoundInvalid := by
  have hnone : (purgeExpired now st).images.find? (fun r => r.code == c) = none := by
    refine List.find?_eq_none.mpr (fun r hr => ?_)
    have hmem := List.mem_filter.mp hr
    intro hbeq
    have hc : r.code = c := by simpa using hbeq
    have h1 := hexp r hmem.1 hc
    have h2 : now < r.createdAt + ttl := by simpa using hmem.2
    omega
  rw [download_none _ _ hnone]

/-- C3 witness: the one-record store purged 25 hours after its upload. -/
theorem c3_purgedLookup_witness :
    (download codeZ (purgeExpired 90000 stOne)).1 = .notFoundInvalid :=
  c3_purgedLookup stOne codeZ 90000 (by decide)

/-- C3 counterexample: the store's record has createdAt 0, so at time 90000
(more than 24 hours later) it is expired, yet - unpurged - the download route
serves the blob: `findOne` carries no `createdAt` filter, so an
expired-but-unpurged record is not treated as absent. -/
theorem c3_counterexample :
    stOne.images.map ImageRec.createdAt = [0] ∧
    ttl < 90000 ∧
    respBytes (download codeZ stOne).1 = some [1] ∧
    isNotFound (download codeZ stOne).1 = false := by decide

/-- C4 (corrected): when every record bearing a code lacks its blob, a
download of the code returns the missing-blob 404, removes the first matching
record, and any subsequent download of the same code is again a 404.  The
restriction to codes all of whose records are blobless is forced by the
counterexample: codes are not unique, and deleteOne removes only the first
record, so a second record with a present blob is served afterwards. -/
theorem c4_selfHeal (st : StoreState) (c : Str) (r : ImageRec)
    (hfind : st.images.find? (fun q => q.code == c) = some r)
    (hall : ∀ q ∈ st.images, q.code = c → lookupFile q.filename st.files = none) :
    (download c st).1 = .notFoundMissing ∧
    (download c st).2.images = st.images.eraseP (fun q => q.code == c) ∧
    ∀ k, isNotFound (download c (downloadIter c k st)).1 = true := by
  have hr_mem : r ∈ st.images := List.mem_of_find?_eq_some hfind
  have hr_code : r.code = c := by simpa using List.find?_some hfind
  have habs := hall r hr_mem hr_code
  refine ⟨?_, ?_, ?_⟩
  · rw [download_found_absent st c r hfind habs]
  · rw [download_found_absent st c r hfind habs]
  · exact fun k => (download_blobless _ c (downloadIter_blobless c k st hall)).1

/-- C4 witness: the single-record store whose blob was deleted out-of-band,
with the all-later-downloads conjunct instantiated at the third call. -/
theorem c4_selfHeal_witness :
    (download codeZ stSoloOrphan).1 = .notFoundMissing ∧
    (download codeZ stSoloOrphan).2.images
      = stSoloOrphan.images.eraseP (fun q => q.code == codeZ) ∧
    isNotFound (download codeZ (downloadIter codeZ 2 stSoloOrphan)).1 = true :=
  ⟨(c4_selfHeal stSoloOrphan codeZ ⟨codeZ, fname1, 0⟩ (by decide) (by decide)).1,
    (c4_selfHeal stSoloOrphan codeZ ⟨codeZ, fname1, 0⟩ (by decide) (by decide)).2.1,
    (c4_selfHeal stSoloOrphan codeZ ⟨codeZ, fname1, 0⟩ (by decide) (by decide)).2.2 2⟩

/-- C4 counterexample: with two records sharing the code (codes are not
unique) and only the first blob missing, the first download self-heals and
returns 404, but the next download of the very same code is served from the
second record - so it is false that every subsequent download returns
not-found. -/
theorem c4_counterexample :
    (download codeZ stOrphan).1 = .notFoundMissing ∧
    isNotFound (download codeZ (download codeZ stOrphan).2).1 = false ∧
    respBytes (download codeZ (download codeZ stOrphan).2).1 = some [2] := by decide

/-- C5 (corrected): only a missing file field is rejected: with no file the
request changes nothing and yields the validation error, while a present file
of zero bytes is accepted - a record is created for it (and its empty blob is
written), since the handler only checks `!req.file`, never the size. -/
theorem c5_noFileOnlyCheck (st : StoreState) (d1 d2 : List Nat) (orig : Str) (t : Nat) :
    upload none d1 d2 t st = (.noFile, st) ∧
    (upload (some (orig, [])) d1 d2 t st).1 = .ok (genCode d2) ∧
    (⟨genCode d2, storageName d1 orig, t⟩ : ImageRec)
      ∈ (upload (some (orig, [])) d1 d2 t st).2.images := by
  refine ⟨rfl, rfl, ?_⟩
  show _ ∈ st.images ++ [⟨genCode d2, storageName d1 orig, t⟩]
  exact List.mem_append_right _ (List.mem_singleton_self _)

/-- C5 counterexample: an upload carrying a present zero-byte file succeeds, a
metadata record is created and an (empty) blob is written - refuting the
claim that a zero-byte payload yields a validation error with no side
effects. -/
theorem c5_counterexample :
    (upload (some ("a.png".toList, [])) dOne dZero 0 emptySt).1 = .ok codeZ ∧
    (upload (some ("a.png".toList, [])) dOne dZero 0 emptySt).2.images ≠ [] ∧
    (upload (some ("a.png".toList, [])) dOne dZero 0 emptySt).2.files ≠ [] := by decide

/-- C6 (corrected): expiry never makes the artifact inaccessible through the
static uploads route: whatever purge pass runs after an upload, the blob is
still served in full under its storage name, because the TTL index removes
only the metadata document and `express.static('uploads')` exposes the
directory. -/
theorem c6_staticPersists (st : StoreState) (d1 d2 : List Nat) (orig : Str)
    (bytes : List Nat) (t now : Nat) :
    staticGet (storageName d1 orig)
      (purgeExpired now (upload (some (orig, bytes)) d1 d2 t st).2) = some bytes := by
  show lookupFile (storageName d1 orig) (putFile (storageName d1 orig) bytes st.files)
    = some bytes
  exact lookupFile_putFile_same _ _ _

/-- C6 counterexample: 25 hours after the upload the TTL purge has removed the
metadata (the code route answers not-found), yet the static route still
returns the artifact's bytes - the artifact is not permanently inaccessible
after expiry. -/
theorem c6_counterexample :
    ttl < 90000 ∧
    (download codeZ (purgeExpired 90000 stOne)).1 = .notFoundInvalid ∧
    staticGet fname1 (purgeExpired 90000 stOne) = some [1] := by decide

/-- C7 (corrected): the storage name is exposed to callers: every successful
download's Content-Disposition filename is exactly the record's internal
storage name, because `res.download(filePath)` defaults the attachment name
to `path.basename(filePath)`. -/
theorem c7_downloadExposesStorageName (st : StoreState) (c : Str) (r : ImageRec)
    (b : List Nat)
    (h1 : st.images.find? (fun q => q.code == c) = some r)
    (h2 : lookupFile r.filename st.files = some b) :
    dispositionOf (download c st).1 = some r.filename := by
  rw [download_found_present _ _ _ _ h1 h2]
  rfl

/-- C7 witness: the one-record store's download carries its storage name. -/
theorem c7_downloadExposesStorageName_witness :
    dispositionOf (download codeZ stOne).1 = some fname1 :=
  c7_downloadExposesStorageName stOne codeZ ⟨codeZ, fname1, 0⟩ [1] (by decide) (by decide)

/-- C7 counterexample: a successful download's caller-observable response
contains the internal storage name (as the Content-Disposition filename),
refuting the claim that no response exposes it. -/
theorem c7_counterexample :
    isNotFound (download codeZ stOne).1 = false ∧
    dispositionOf (download codeZ stOne).1 = some (storageName dOne "a.png".toList) := by
  decide

/-- C8 (corrected): every generated code is a string of exactly 8 characters,
but they are drawn from the 16-symbol hexadecimal alphabet - the first eight
hex digits of a v4 UUID - so the code space has 16^8, about 4.3e9,
combinations, not 36^8. -/
theorem c8_hexCode (d : List Nat) (hlen : d.length = 32) (hval : ∀ x ∈ d, x < 16) :
    (genCode d).length = 8 ∧ ∀ ch ∈ genCode d, ch ∈ hexAlphabet := by
  have hg := genCode_eq_take d hlen
  constructor
  · rw [hg]
    simp [hlen]
  · rw [hg]
    intro ch hch
    rcases List.mem_map.mp hch with ⟨x, hx, rfl⟩
    exact hexChar_mem_hexAlphabet x (hval x (List.take_subset _ _ hx))

/-- C8 witness: the all-zero draw produces an 8-character hex code. -/
theorem c8_hexCode_witness :
    (genCode dZero).length = 8 ∧ '0' ∈ hexAlphabet :=
  ⟨(c8_hexCode dZero (by decide) (by decide)).1,
    (c8_hexCode dZero (by decide) (by decide)).2 '0' (by decide)⟩

/-- C8 counterexample: the symbol z belongs to the 36-symbol alphabet the
claim names, yet no reachable code ever contains it - the generator emits hex
digits only, so the space of producible codes is far smaller than the claimed
approximately 2.8e12. -/
theorem c8_counterexample :
    'z' ∈ base36Alphabet ∧
    ¬ ∃ d : List Nat, d.length = 32 ∧ (∀ x ∈ d, x < 16) ∧ 'z' ∈ genCode d := by
  refine ⟨by decide, ?_⟩
  rintro ⟨d, hlen, hval, hz⟩
  rw [genCode_eq_take d hlen] at hz
  rcases List.mem_map.mp hz with ⟨x, hx, hzx⟩
  have hmem := hexChar_mem_hexAlphabet x (hval x (List.take_subset _ _ hx))
  rw [hzx] at hmem
  exact absurd hmem (by decide)

/-- C9 (confirmed): the storage name is the fresh uuid with only the original
name's extension appended: it equals `uuidv4 d ++ extname orig`; the extension
is a suffix of the original name's last component (after Node's
trailing-slash trimming) and hence a contiguous slice of the original name;
and any two original names with the same extension receive identical storage
names - no other part of the caller-supplied filename flows into the storage
name. -/
theorem c9_extensionOnly (d : List Nat) (o1 o2 : Str) (h : extname o1 = extname o2) :
    storageName d o1 = uuidv4 d ++ extname o1 ∧
    List.IsSuffix (extname o1) (basenameOf o1) ∧
    extname o1 <:+: o1 ∧
    storageName d o1 = storageName d o2 := by
  refine ⟨rfl, extname_suffix_basename o1, extname_infix o1, ?_⟩
  unfold storageName
  rw [h]

/-- C9 witness: two distinct original filenames with the png extension map to
the same storage name. -/
theorem c9_extensionOnly_witness :
    storageName dOne "photo.png".toList = uuidv4 dOne ++ extname "photo.png".toList ∧
    List.IsSuffix (extname "photo.png".toList) (basenameOf "photo.png".toList) ∧
    extname "photo.png".toList <:+: "photo.png".toList ∧
    storageName dOne "photo.png".toList = storageName dOne "img.png".toList :=
  c9_extensionOnly dOne ("photo.png".toList) ("img.png".toList) (by decide)

/-- C10 (confirmed): signup hashes the password in the route handler and the
pre-save hook hashes the stored value again, so the persisted password is a
double digest; login compares the plaintext against it with bcrypt.compare,
which can only match a single digest - login with the original credentials
therefore always returns invalid-credentials. -/
theorem c10_loginAfterSignupFails (us : List UserRec) (email pw : String) (s1 s2 : Nat)
    (hemail : email ≠ "") (hpw : pw ≠ "")
    (hnew : findUser email us = none) :
    (signup email pw s1 s2 us).1 = .created ∧
    login email pw (signup email pw s1 s2 us).2 = .invalidCredentials := by
  have hcond : (email == "" || pw == "") = false := by
    rw [Bool.or_eq_false_iff]
    exact ⟨beq_eq_false_iff_ne.mpr hemail, beq_eq_false_iff_ne.mpr hpw⟩
  have hsig : signup email pw s1 s2 us
      = (.created, us ++ [⟨email, .hashed s2 (.hashed s1 (.plain pw))⟩]) := by
    simp [signup, hcond, hnew, preSaveHook, bcryptHash]
  refine ⟨by rw [hsig], ?_⟩
  rw [hsig]
  have hfind : findUser email
      (us ++ [(⟨email, .hashed s2 (.hashed s1 (.plain pw))⟩ : UserRec)])
      = some ⟨email, .hashed s2 (.hashed s1 (.plain pw))⟩ := by
    unfold findUser at hnew ⊢
    rw [find?_append_of_none _ _ _ hnew]
    simp [List.find?_cons]
  have hcmp : bcryptCompare pw (PwVal.hashed s2 (PwVal.hashed s1 (PwVal.plain pw)))
      = false := by
    simp [bcryptCompare]
  simp [login, hcond, hfind, hcmp]

/-- C10 witness: a concrete signup followed by a login with the same
credentials, which is rejected. -/
theorem c10_loginAfterSignupFails_witness :
    (signup "user@example.com" "secret" 1 2 []).1 = .created ∧
    login "user@example.com" "secret" (signup "user@example.com" "secret" 1 2 []).2
      = .invalidCredentials :=
  c10_loginAfterSignupFails [] "user@example.com" "secret" 1 2
    (by decide) (by decide) rfl

end ImageBackend
